import Mathlib

/-!
Verification of the crypto-trading-bot signal core against its design notes.

The development shallowly embeds the analytical pipeline of the repository:

* `update_pivots`            (src/src/utils.py)        — pivot detection
* `update_support_resistance`(src/src/utils.py)        — support/resistance matching
* `scanOpportunity`          (src/src/utils.py, the bullish scan in can_trade)
* `sizeOpportunity`/`can_trade` (src/src/utils.py)     — trade sizing
* `handleTrade`/`coins_handler` (src/src/handle_owned_coins.py) — trade ladder

Prices are embedded as rationals, timestamps as integers.  Python behaviour
that can raise (`list[i]` indexing, division by zero) is embedded in
`Except PyErr`.  Broker calls are embedded as environments carrying the
responses the venue would return, consumed in call order, and the
instructions issued to the venue are collected in a `BrokerAction` list.
-/

namespace TradingBot

/-! ## Configuration constants (src/src/config.py) -/

/-- frequency of trading signals in milliseconds (config.py). -/
def TRADING_FREQUENCY_MS : Int := 5 * 60 * 1000

/-- fixed trade quantity fraction (config.py, 0.01). -/
def SET_TRADE_QUANTITY : Rat := 1 / 100

/-- number of candles compared on each side for pivot detection (config.py). -/
def PIVOT_POINT_COMPARE : Nat := 2

/-- maximum relative price difference between paired pivots (config.py, 0.005). -/
def MAXIMUM_PERCENTAGE_DIFFERENCE : Rat := 5 / 1000

/-- minimum relative breakthrough below the support line (config.py, 0.002). -/
def MINIMUM_BREAKTHROUGH_PERCENTAGE : Rat := 2 / 1000

/-- maximum time gap between paired pivots (config.py). -/
def SUPPORT_LINE_TIMEFRAME : Int := 72 * TRADING_FREQUENCY_MS

/-- opportunity window extension when an extremum is found (config.py). -/
def TIME_EXTEND_MS : Int := 5 * TRADING_FREQUENCY_MS

/-- Modelled from the spec: SALES_RATIO is imported by
src/src/handle_owned_coins.py from src/src/config.py but the config file in
the repository snapshot does not define it.  The spec fixes the take-profit
quantity fractions as 50%, 25% and the remainder of `t.quantity`. -/
def SALES_RATIO : List Rat := [1/2, 1/4, 1/4]

/-! ## Python-level semantics helpers -/

/-- The Python exceptions the embedded code can raise. -/
inductive PyErr where
  | zeroDivisionError
  | indexError
  deriving DecidableEq, Repr

instance {ε α : Type} [DecidableEq ε] [DecidableEq α] : DecidableEq (Except ε α) := fun a b =>
  match a, b with
  | .error e, .error f =>
    if h : e = f then isTrue (congrArg Except.error h)
    else isFalse (fun hc => h (by injection hc))
  | .error _, .ok _ => isFalse (fun hc => Except.noConfusion hc)
  | .ok _, .error _ => isFalse (fun hc => Except.noConfusion hc)
  | .ok x, .ok y =>
    if h : x = y then isTrue (congrArg Except.ok h)
    else isFalse (fun hc => h (by injection hc))

/-- Python `lst[i]` for a non-negative index: raises IndexError out of range. -/
def pyGet (l : List Rat) (i : Nat) : Except PyErr Rat :=
  match l.get? i with
  | some v => .ok v
  | none => .error .indexError

/-- Python `lst[i] = v` for a non-negative index. -/
def pySet (l : List Rat) (i : Nat) (v : Rat) : Except PyErr (List Rat) :=
  if i < l.length then .ok (l.set i v) else .error .indexError

/-- Python `round(x, p)`: round half to even at `p` decimal places. -/
def pyRound (x : Rat) (p : Nat) : Rat :=
  let y := x * (10 : Rat) ^ p
  let f := ⌊y⌋
  let r : Int :=
    if y - f < 1/2 then f
    else if y - f > 1/2 then f + 1
    else if f % 2 = 0 then f else f + 1
  (r : Rat) / (10 : Rat) ^ p

/-- `sum(bool(x) for x in l)`: the number of nonzero entries. -/
def truthyCount (l : List Rat) : Nat :=
  (l.filter (fun x => decide (x ≠ 0))).length

/-! ## Data model (fields as used by src/src/utils.py and
src/src/handle_owned_coins.py; the dataclasses in models.py are stale) -/

/-- One OHLC bar restricted to the fields the core reads. -/
structure Bar where
  timestamp : Int
  high : Rat
  low : Rat
  deriving DecidableEq, Repr

instance : Inhabited Bar := ⟨⟨0, 0, 0⟩⟩

/-- A pandas frame of bars indexed by timestamp; the Booleans record whether
the `high`/`low` columns are present (the data-shape check in update_pivots). -/
structure PyDataFrame where
  rows : List Bar
  hasHigh : Bool
  hasLow : Bool
  deriving DecidableEq, Repr

/-- PivotPoint as constructed in utils.py. -/
structure PivotPoint where
  timestamp : Int
  price : Rat
  position : Nat
  type : String
  is_supported : Bool
  deriving DecidableEq, Repr

instance : Inhabited PivotPoint := ⟨⟨0, 0, 0, "", false⟩⟩

/-- Opportunity as constructed in utils.py (`end` is a Lean keyword; the
persistent store calls the column `end_time`, we follow it). -/
structure Opportunity where
  support_line : Rat
  minimum : Rat
  maximum : Rat
  relative_pivot : Rat
  action : String
  start : Int
  end_time : Int
  extrema_timestamp : Int
  deriving DecidableEq, Repr

/-- Trade as constructed in utils.py and mutated in handle_owned_coins.py. -/
structure Trade where
  coin : String
  order_id : Nat
  quantity : Rat
  stop_loss : List Rat
  profit_level : List Rat
  tp_order_ids : List Nat
  entry : Nat
  deriving DecidableEq, Repr

/-! ## Pivot Detector (update_pivots, src/src/utils.py lines 102-188) -/

/-- `window = max(int(PIVOT_POINT_COMPARE), 1)`. -/
def pivotWindow : Nat := max PIVOT_POINT_COMPARE 1

/-- Insertion of a bar into a timestamp-sorted list (stable). -/
def insertBar (b : Bar) : List Bar → List Bar
  | [] => [b]
  | c :: cs => if c.timestamp ≤ b.timestamp then c :: insertBar b cs else b :: c :: cs

/-- `df.sort_index()`: stable sort of the bars by timestamp. -/
def sortBars : List Bar → List Bar
  | [] => []
  | b :: bs => insertBar b (sortBars bs)

/-- Threshold below which old bars are not rescanned (utils.py lines 116-123). -/
def latestThreshold (pivots : List PivotPoint) : Option Int :=
  match pivots.getLast? with
  | none => none
  | some p => if p.timestamp > 0 then some (p.timestamp - 2 * 15 * 60 * 1000) else none

/-- The inner neighbourhood loop for a pivot low: true iff the candidate's low
is ≤ every low in `[c - window, c + window]` (the loop sets the flag false on
`row_candidate.low > row_neighbor.low`). -/
def isPivotLowAt (rows : List Bar) (c : Nat) : Bool :=
  (List.range' (c - pivotWindow) (2 * pivotWindow + 1)).all
    (fun nb => decide ((rows.getD c default).low ≤ (rows.getD nb default).low))

/-- The inner neighbourhood loop for a pivot high. -/
def isPivotHighAt (rows : List Bar) (c : Nat) : Bool :=
  (List.range' (c - pivotWindow) (2 * pivotWindow + 1)).all
    (fun nb => decide ((rows.getD c default).high ≥ (rows.getD nb default).high))

/-- The candidate indices scanned by update_pivots: indices whose timestamp
passes the threshold filter, clamped to `[window, len - window - 1]`. -/
def evalCandidates (rows : List Bar) (pivots : List PivotPoint) : List Nat :=
  let thr := latestThreshold pivots
  let ts := rows.map (fun b => b.timestamp)
  let filtered := (List.range ts.length).filter
    (fun i => match thr with
      | none => true
      | some th => decide (ts.getD i 0 ≥ th))
  match filtered with
  | [] => []
  | f0 :: _ =>
    let start := max f0 pivotWindow
    let e := rows.length - pivotWindow - 1
    if start > e then [] else List.range' start (e + 1 - start)

/-- The body of the candidate loop: append a low and/or a high pivot at the
candidate index unless the timestamp is non-positive or a duplicate
`(timestamp, type)` already exists. -/
def appendCandidate (rows : List Bar) (pivots : List PivotPoint) (c : Nat) :
    List PivotPoint :=
  let b := rows.getD c default
  if b.timestamp ≤ 0 then pivots
  else
    let p1 :=
      if isPivotLowAt rows c &&
         !(pivots.any (fun p => decide (p.timestamp = b.timestamp) && decide (p.type = "low")))
      then pivots ++ [⟨b.timestamp, b.low, c, "low", false⟩]
      else pivots
    if isPivotHighAt rows c &&
       !(p1.any (fun p => decide (p.timestamp = b.timestamp) && decide (p.type = "high")))
    then p1 ++ [⟨b.timestamp, b.high, c, "high", false⟩]
    else p1

/-- update_pivots (utils.py).  The returned `Option String` is the Python
return value: `some s` a string, `none` the implicit Python `None` (the scan
path has no return statement).  The second component is the pivot list after
the in-place mutation. -/
def update_pivots (data : Option PyDataFrame) (pivots : List PivotPoint) :
    Option String × List PivotPoint :=
  match data with
  | none => (some "none", pivots)
  | some df =>
    if df.rows.length = 0 then (some "none", pivots)
    else if df.rows.length < pivotWindow * 2 + 1 then (some "none", pivots)
    else
      let rows := sortBars df.rows
      if !(df.hasHigh && df.hasLow) then (some "none", pivots)
      else
      let cands := evalCandidates rows pivots
      if cands.isEmpty then (some "none", pivots)
      else (none, cands.foldl (appendCandidate rows) pivots)

/-! ## Support/Resistance Matcher
(update_support_resistance, src/src/utils.py lines 191-245) -/

/-- `pivots[i].is_supported = True`. -/
def markSupported (ps : List PivotPoint) (i : Nat) : List PivotPoint :=
  match ps.get? i with
  | some p => ps.set i { p with is_supported := true }
  | none => ps

/-- Inner `j`-loop body of update_support_resistance.  State: current pivot
list, current opportunity list, and whether the loop has hit `break`. -/
def srInner (t : String) (i : Nat)
    (st : List PivotPoint × List Opportunity × Bool) (j : Nat) :
    List PivotPoint × List Opportunity × Bool :=
  let ps := st.1
  let opps := st.2.1
  let broke := st.2.2
  if broke then st else
  let pj := ps.getD j default
  if !(decide (pj.type = t)) || pj.is_supported then st
  else if (List.range' (i + 1) (j - (i + 1))).any
      (fun k => decide ((ps.getD k default).type = t)) then st
  else
    let pi := ps.getD i default
    if |pj.timestamp - pi.timestamp| > SUPPORT_LINE_TIMEFRAME then (ps, opps, true)
    else if decide (pi.price = 0) then st
    else if |pj.price - pi.price| / pi.price > MAXIMUM_PERCENTAGE_DIFFERENCE then st
    else
      let ps1 := markSupported (markSupported ps i) j
      let newOpp : Opportunity :=
        { support_line := (pi.price + pj.price) / 2
          minimum := 0
          maximum := 0
          relative_pivot := 0
          action := "N/A"
          start := pj.timestamp
          end_time := pj.timestamp + SUPPORT_LINE_TIMEFRAME
          extrema_timestamp := 0 }
      (ps1, opps ++ [newOpp], false)

/-- Outer `i`-loop body of update_support_resistance. -/
def srOuterStep (t : String) (st : List PivotPoint × List Opportunity) (i : Nat) :
    List PivotPoint × List Opportunity :=
  let ps := st.1
  let opps := st.2
  let pi := ps.getD i default
  if !(decide (pi.type = t)) || pi.is_supported then st
  else
    let r := (List.range' (i + 1) (ps.length - (i + 1))).foldl (srInner t i)
      (ps, opps, false)
    (r.1, r.2.1)

/-- update_support_resistance (utils.py): pair consecutive unsupported
same-type pivots into opportunities, first for `"low"`, then for `"high"`. -/
def update_support_resistance (ps : List PivotPoint) (opps : List Opportunity) :
    List PivotPoint × List Opportunity :=
  if ps.length < 2 then (ps, opps)
  else
    ["low", "high"].foldl
      (fun st t => (List.range (st.1.length - 1)).foldl (srOuterStep t) st)
      (ps, opps)

/-! ## Opportunity extrema scan
(the bullish branch of can_trade, src/src/utils.py lines 267-282) -/

/-- The backward `j`-loop: the price of the nearest pivot of type "high"
strictly before index `i`, scanning from `i - 1` downward. -/
def findPrevHigh (ps : List PivotPoint) : Nat → Option Rat
  | 0 => none
  | k + 1 =>
    if (ps.getD k default).type = "high" then some (ps.getD k default).price
    else findPrevHigh ps k

/-- One iteration of the bullish scan over pivot index `i`; the Boolean is the
`break` flag of the Python loop. -/
def scanStep (ps : List PivotPoint) (st : Opportunity × Bool) (i : Nat) :
    Opportunity × Bool :=
  let opp := st.1
  if st.2 then st else
  let p := ps.getD i default
  if p.timestamp < opp.start || p.timestamp < opp.extrema_timestamp then (opp, false)
  else
    let opp1 :=
      if decide (p.type = "low") &&
         decide (p.price < opp.support_line * (1 - MINIMUM_BREAKTHROUGH_PERCENTAGE))
      then { opp with
              minimum := p.price
              end_time := opp.end_time + TIME_EXTEND_MS
              extrema_timestamp := p.timestamp }
      else opp
    let opp2 :=
      match findPrevHigh ps i with
      | some pr => { opp1 with relative_pivot := pr }
      | none => opp1
    if decide (opp2.minimum > 0) && decide (p.price > opp2.relative_pivot)
    then ({ opp2 with maximum := p.price }, true)
    else (opp2, false)

/-- The whole bullish scan of one opportunity over the pivot list. -/
def scanOpportunity (ps : List PivotPoint) (opp : Opportunity) : Opportunity :=
  ((List.range ps.length).foldl (scanStep ps) (opp, false)).1

/-! ## Trade Sizer (the tail of can_trade, src/src/utils.py lines 307-343) -/

/-- A get_balance response restricted to the fields read by can_trade. -/
structure BalanceResp where
  Success : Bool
  usdFree : Rat
  deriving DecidableEq, Repr

/-- A place_order response restricted to the fields read by the core. -/
structure PlaceResp where
  Success : Bool
  orderId : Nat
  deriving DecidableEq, Repr

/-- The venue, embedded as the list of responses it will return, consumed in
call order; an exhausted list answers with a failure response. -/
structure VenueEnv where
  balances : List BalanceResp
  places : List PlaceResp
  deriving DecidableEq, Repr

/-- Pop the next get_balance response. -/
def takeBalance (env : VenueEnv) : BalanceResp × VenueEnv :=
  (env.balances.headD ⟨false, 0⟩, { env with balances := env.balances.tail })

/-- Pop the next place_order response. -/
def takePlace (env : VenueEnv) : PlaceResp × VenueEnv :=
  (env.places.headD ⟨false, 0⟩, { env with places := env.places.tail })

/-- `order_price = opportunity.minimum + 0.618 * (maximum - minimum)`. -/
def entryPrice (opp : Opportunity) : Rat :=
  opp.minimum + (618 / 1000) * (opp.maximum - opp.minimum)

/-- The sizing tail of the can_trade loop body (utils.py lines 307-343): query
the balance, compute price and quantity, place a LIMIT buy, and on success
record the Trade with its three-rung ladder.  Division by a zero order price
raises ZeroDivisionError exactly as `order_quantity = ... / order_price`. -/
def sizeOpportunity (coin : String) (amount_precision price_precision : Nat)
    (opp : Opportunity) (trades : List Trade) (env : VenueEnv) :
    Except PyErr (Opportunity × List Trade × VenueEnv) :=
  let bal := takeBalance env
  if !bal.1.Success then .ok (opp, trades, bal.2)
  else
    let order_price_raw := entryPrice opp
    if order_price_raw = 0 then .error .zeroDivisionError
    else
      let order_quantity :=
        pyRound ((bal.1.usdFree * SET_TRADE_QUANTITY) / order_price_raw) amount_precision
      let _order_price := pyRound order_price_raw price_precision
      let pl := takePlace bal.2
      if pl.1.Success then
        let fib_range := opp.maximum - opp.minimum
        .ok ({ opp with action := "BUY" },
             trades ++ [{ coin := coin
                          order_id := pl.1.orderId
                          quantity := order_quantity
                          stop_loss := [(opp.minimum + opp.support_line) / 2,
                                        opp.minimum + fib_range * (618 / 1000),
                                        fib_range * 1]
                          profit_level := [fib_range * 1,
                                           fib_range * (1618 / 1000),
                                           fib_range * (2618 / 1000)]
                          tp_order_ids := []
                          entry := 0 }],
             pl.2)
      else .ok ({ opp with action := "N/A" }, trades, pl.2)

/-- The per-opportunity body of can_trade: skip opportunities already acted
on, run the bullish scan when the trend is bullish, then size. -/
def canTradeStep (coin : String) (pivots : List PivotPoint) (trend : String)
    (amount_precision price_precision : Nat)
    (st : List Opportunity × List Trade × VenueEnv) (opp : Opportunity) :
    Except PyErr (List Opportunity × List Trade × VenueEnv) :=
  if opp.action ≠ "N/A" then .ok (st.1 ++ [opp], st.2.1, st.2.2)
  else
    let opp1 := if trend = "bullish" then scanOpportunity pivots opp else opp
    match sizeOpportunity coin amount_precision price_precision opp1 st.2.1 st.2.2 with
    | .ok r => .ok (st.1 ++ [r.1], r.2.1, r.2.2)
    | .error e => .error e

/-- Run the opportunity loop over the remaining opportunities. -/
def canTradeLoop (coin : String) (pivots : List PivotPoint) (trend : String)
    (amount_precision price_precision : Nat) :
    List Opportunity → List Opportunity × List Trade × VenueEnv →
    Except PyErr (List Opportunity × List Trade × VenueEnv)
  | [], st => .ok st
  | opp :: rest, st =>
    match canTradeStep coin pivots trend amount_precision price_precision st opp with
    | .error e => .error e
    | .ok st1 => canTradeLoop coin pivots trend amount_precision price_precision rest st1

/-- can_trade (utils.py lines 247-343): the guard, then the loop over the
opportunities.  Returns the mutated opportunity and trade lists; an uncaught
Python exception is the `Except.error` case. -/
def can_trade (coin : String) (pivots : List PivotPoint)
    (opportunities : List Opportunity) (trades : List Trade) (trend : String)
    (amount_precision price_precision : Nat) (env : VenueEnv) :
    Except PyErr (List Opportunity × List Trade) :=
  if pivots.isEmpty || opportunities.isEmpty ||
     !(trend = "bullish" || trend = "bearish" : Bool) then
    .ok (opportunities, trades)
  else
    match canTradeLoop coin pivots trend amount_precision price_precision
      opportunities ([], trades, env) with
    | .ok r => .ok (r.1, r.2.1)
    | .error e => .error e

/-! ## Position Manager (coins_handler, src/src/handle_owned_coins.py) -/

/-- Python `lst[i]` with an `Int` index: negative indices wrap from the end,
anything else out of range raises IndexError. -/
def pyGetI (l : List Rat) (i : Int) : Except PyErr Rat :=
  let j := if i < 0 then i + l.length else i
  if 0 ≤ j ∧ j < l.length then .ok (l.getD j.toNat 0) else .error .indexError

/-- An instruction issued to the order-execution venue. -/
inductive BrokerAction where
  | limitSell (qty price : Rat)
  | cancel (orderId : Nat)
  | marketSell (qty : Rat)
  deriving DecidableEq, Repr

/-- The venue/market responses one iteration of the trade loop consumes. -/
structure TradeEnv where
  entryFilled : Bool
  tpPlace : List PlaceResp
  filledIds : List Nat
  bar : Option Bar
  amount_precision : Nat
  price_precision : Nat
  deriving DecidableEq, Repr

instance : Inhabited TradeEnv := ⟨⟨false, [], [], none, 0, 0⟩⟩

/-- One iteration of the take-profit placement loop (handle_owned_coins.py
lines 36-50): place a LIMIT sell for `quantity * SALES_RATIO[i]` at
`profit_level[i]`; on a failed placement `break`, otherwise append the
returned order id. -/
def placeTpStep (env : TradeEnv) (st : Trade × List BrokerAction × Bool) (i : Nat) :
    Except PyErr (Trade × List BrokerAction × Bool) :=
  let t := st.1
  let acts := st.2.1
  let broke := st.2.2
  if broke then .ok st else
  match pyGet t.profit_level i with
  | .error e => .error e
  | .ok price =>
    let qty := pyRound (t.quantity * SALES_RATIO.getD i 0) env.amount_precision
    let placed := env.tpPlace.getD i ⟨false, 0⟩
    let acts1 := acts ++ [.limitSell qty (pyRound price env.price_precision)]
    if !placed.Success then .ok (t, acts1, true)
    else .ok ({ t with tp_order_ids := t.tp_order_ids ++ [placed.orderId] }, acts1, false)

/-- Run the placement loop over the remaining iteration indices. -/
def placeTpLoop (env : TradeEnv) : List Nat → Trade × List BrokerAction × Bool →
    Except PyErr (Trade × List BrokerAction × Bool)
  | [], st => .ok st
  | i :: rest, st =>
    match placeTpStep env st i with
    | .error e => .error e
    | .ok st1 => placeTpLoop env rest st1

/-- The whole placement loop, iterating over the indices of SALES_RATIO. -/
def placeTpOrders (t : Trade) (env : TradeEnv) :
    Except PyErr (Trade × List BrokerAction) :=
  match placeTpLoop env (List.range SALES_RATIO.length) (t, [], false) with
  | .error e => .error e
  | .ok r => .ok (r.1, r.2.1)

/-- One iteration of the take-profit fill scan (handle_owned_coins.py lines
67-72): zero the rung of a tp order the venue reports FILLED. -/
def tpFillStep (env : TradeEnv) (cur : Trade) (i : Nat) : Except PyErr Trade :=
  let oid := cur.tp_order_ids.getD i 0
  if env.filledIds.contains oid then
    match pySet cur.profit_level i 0 with
    | .error e => .error e
    | .ok pl =>
      match pySet cur.stop_loss i 0 with
      | .error e => .error e
      | .ok sl => .ok { cur with profit_level := pl, stop_loss := sl }
  else .ok cur

/-- Run the fill scan over the remaining iteration indices. -/
def tpFillLoop (env : TradeEnv) : List Nat → Trade → Except PyErr Trade
  | [], cur => .ok cur
  | i :: rest, cur =>
    match tpFillStep env cur i with
    | .error e => .error e
    | .ok cur1 => tpFillLoop env rest cur1

/-- The take-profit fill scan: `for i in range(len(t.tp_order_ids))`. -/
def applyTpFills (t : Trade) (env : TradeEnv) : Except PyErr Trade :=
  tpFillLoop env (List.range t.tp_order_ids.length) t

/-- `{3: 1.00, 2: 0.50, 1: 0.25, 0: 0.00}.get(remaining, 0.0)`. -/
def remainFrac (remaining : Nat) : Rat :=
  match remaining with
  | 3 => 1
  | 2 => 1/2
  | 1 => 1/4
  | 0 => 0
  | _ => 0

/-- The body of the trade loop in coins_handler for one Trade.  Returns the
mutated Trade and the broker instructions issued, or the uncaught Python
exception. -/
def handleTrade (t : Trade) (env : TradeEnv) :
    Except PyErr (Trade × List BrokerAction) :=
  if t.entry = 1 ∧ truthyCount t.profit_level = 0 then .ok (t, [])
  else if t.entry = 0 ∧ !env.entryFilled then .ok (t, [])
  else
    match (if t.entry = 0 then placeTpOrders t env else .ok (t, [])) with
    | .error e => .error e
    | .ok r1 =>
      let t2 := { r1.1 with entry := 1 }
      match env.bar with
      | none => .ok (t2, r1.2)
      | some bar =>
        match applyTpFills t2 env with
        | .error e => .error e
        | .ok t3 =>
          let remaining := truthyCount t3.profit_level
          match pyGetI t3.stop_loss ((t3.stop_loss.length : Int) - remaining) with
          | .error e => .error e
          | .ok sl =>
            let cancelActs :=
              if bar.low ≤ sl then t3.tp_order_ids.map BrokerAction.cancel else []
            let remain_qty := t3.quantity * remainFrac remaining
            let sellActs :=
              if remain_qty > 0
              then [BrokerAction.marketSell (pyRound remain_qty env.amount_precision)]
              else []
            .ok (t3, r1.2 ++ cancelActs ++ sellActs)

/-- coins_handler (handle_owned_coins.py): process every stored trade in
order; an uncaught exception aborts the whole loop (and the final
insert_trades never runs). -/
def coins_handler : List Trade → List TradeEnv →
    Except PyErr (List Trade × List BrokerAction)
  | [], _ => .ok ([], [])
  | t :: ts, envs =>
    match handleTrade t (envs.headD default) with
    | .error e => .error e
    | .ok r =>
      match coins_handler ts envs.tail with
      | .error e => .error e
      | .ok rs => .ok (r.1 :: rs.1, r.2 ++ rs.2)

/-! ## Specification-side helpers used only in theorem statements -/

/-- The venue responses the three placement-loop iterations consume, in
order: `tpPlace[i]` when present, a failure response once exhausted. -/
def tpRespSeq (rs : List PlaceResp) : List PlaceResp :=
  (List.range SALES_RATIO.length).map (fun i => rs.getD i ⟨false, 0⟩)

/-- A clean symmetric V-shaped bar window around index 5 (Scenario A). -/
def c5Bars : List Bar :=
  [⟨1, 11, 10⟩, ⟨2, 10, 9⟩, ⟨3, 9, 8⟩, ⟨4, 8, 7⟩, ⟨5, 7, 6⟩, ⟨6, 6, 5⟩,
   ⟨7, 7, 6⟩, ⟨8, 8, 7⟩, ⟨9, 9, 8⟩, ⟨10, 10, 9⟩, ⟨11, 11, 10⟩]

/-- A five-bar V-shaped window with its pivot low at index 2. -/
def c9Bars : List Bar :=
  [⟨1, 4, 3⟩, ⟨2, 3, 2⟩, ⟨3, 2, 1⟩, ⟨4, 3, 2⟩, ⟨5, 4, 3⟩]

/-! ## Shared lemmas about the position-manager loops -/

theorem tpFillStep_pres (env : TradeEnv) (cur r : Trade) (i : Nat)
    (h : tpFillStep env cur i = .ok r) :
    r.profit_level.length = cur.profit_level.length ∧
    r.stop_loss.length = cur.stop_loss.length ∧
    r.tp_order_ids = cur.tp_order_ids ∧ r.quantity = cur.quantity ∧
    r.entry = cur.entry := by
  by_cases hc : cur.tp_order_ids[i]?.getD 0 ∈ env.filledIds
  · by_cases hp : i < cur.profit_level.length
    · by_cases hs : i < cur.stop_loss.length
      · simp [tpFillStep, pySet, hc, hp, hs] at h
        subst h
        simp
      · simp [tpFillStep, pySet, hc, hp, hs] at h
    · simp [tpFillStep, pySet, hc, hp] at h
  · simp [tpFillStep, pySet, hc] at h
    subst h
    exact ⟨rfl, rfl, rfl, rfl, rfl⟩

theorem tpFillLoop_pres (env : TradeEnv) (l : List Nat) : ∀ cur r : Trade,
    tpFillLoop env l cur = .ok r →
    r.profit_level.length = cur.profit_level.length ∧
    r.stop_loss.length = cur.stop_loss.length ∧
    r.tp_order_ids = cur.tp_order_ids ∧ r.quantity = cur.quantity ∧
    r.entry = cur.entry := by
  induction l with
  | nil =>
    intro cur r h
    injection h with h1
    subst h1
    exact ⟨rfl, rfl, rfl, rfl, rfl⟩
  | cons i rest ih =>
    intro cur r h
    unfold tpFillLoop at h
    cases hstep : tpFillStep env cur i with
    | error e => rw [hstep] at h; exact absurd h (by simp)
    | ok cur1 =>
      rw [hstep] at h
      obtain ⟨a1, a2, a3, a4, a5⟩ := tpFillStep_pres env cur cur1 i hstep
      obtain ⟨b1, b2, b3, b4, b5⟩ := ih cur1 r h
      exact ⟨b1.trans a1, b2.trans a2, b3.trans a3, b4.trans a4, b5.trans a5⟩

theorem tpFillStep_isOk (env : TradeEnv) (cur : Trade) (i : Nat)
    (hp : i < cur.profit_level.length) (hs : i < cur.stop_loss.length) :
    ∃ r, tpFillStep env cur i = .ok r := by
  by_cases hc : cur.tp_order_ids[i]?.getD 0 ∈ env.filledIds
  · refine ⟨{ cur with
        profit_level := cur.profit_level.set i 0
        stop_loss := cur.stop_loss.set i 0 }, ?_⟩
    simp [tpFillStep, pySet, hc, hp, hs]
  · exact ⟨cur, by simp [tpFillStep, pySet, hc]⟩

theorem tpFillLoop_isOk (env : TradeEnv) (l : List Nat) : ∀ cur : Trade,
    (∀ i ∈ l, i < cur.profit_level.length ∧ i < cur.stop_loss.length) →
    ∃ r, tpFillLoop env l cur = .ok r := by
  induction l with
  | nil => intro cur _; exact ⟨cur, rfl⟩
  | cons i rest ih =>
    intro cur hb
    obtain ⟨cur1, hstep⟩ := tpFillStep_isOk env cur i
      (hb i (by simp)).1 (hb i (by simp)).2
    obtain ⟨a1, a2, _, _, _⟩ := tpFillStep_pres env cur cur1 i hstep
    obtain ⟨r, hloop⟩ := ih cur1 (fun j hj => by
      rw [a1, a2]
      exact hb j (by simp [hj]))
    exact ⟨r, by unfold tpFillLoop; rw [hstep]; exact hloop⟩

theorem placeTpStep_pres (env : TradeEnv) (st r : Trade × List BrokerAction × Bool)
    (i : Nat) (h : placeTpStep env st i = .ok r) :
    r.1.profit_level = st.1.profit_level ∧ r.1.stop_loss = st.1.stop_loss ∧
    r.1.quantity = st.1.quantity ∧ r.1.entry = st.1.entry := by
  by_cases hb : st.2.2 = true
  · simp [placeTpStep, hb] at h
    subst h
    exact ⟨rfl, rfl, rfl, rfl⟩
  · cases hg : st.1.profit_level[i]? with
    | none => simp [placeTpStep, pyGet, hb, hg] at h
    | some price =>
      by_cases hsucc : (env.tpPlace[i]?.getD ⟨false, 0⟩).Success = true
      · simp [placeTpStep, pyGet, hb, hg, hsucc] at h
        subst h
        exact ⟨rfl, rfl, rfl, rfl⟩
      · simp [placeTpStep, pyGet, hb, hg, hsucc] at h
        subst h
        exact ⟨rfl, rfl, rfl, rfl⟩

theorem placeTpLoop_pres (env : TradeEnv) (l : List Nat) :
    ∀ st r : Trade × List BrokerAction × Bool,
    placeTpLoop env l st = .ok r →
    r.1.profit_level = st.1.profit_level ∧ r.1.stop_loss = st.1.stop_loss ∧
    r.1.quantity = st.1.quantity ∧ r.1.entry = st.1.entry := by
  induction l with
  | nil =>
    intro st r h
    injection h with h1
    subst h1
    exact ⟨rfl, rfl, rfl, rfl⟩
  | cons i rest ih =>
    intro st r h
    unfold placeTpLoop at h
    cases hstep : placeTpStep env st i with
    | error e => rw [hstep] at h; exact absurd h (by simp)
    | ok st1 =>
      rw [hstep] at h
      obtain ⟨a1, a2, a3, a4⟩ := placeTpStep_pres env st st1 i hstep
      obtain ⟨b1, b2, b3, b4⟩ := ih st1 r h
      exact ⟨b1.trans a1, b2.trans a2, b3.trans a3, b4.trans a4⟩

theorem placeTpLoop_broke (env : TradeEnv) (l : List Nat) :
    ∀ st : Trade × List BrokerAction × Bool,
    st.2.2 = true → placeTpLoop env l st = .ok st := by
  induction l with
  | nil => intro st _; rfl
  | cons i rest ih =>
    intro st hb
    have hstep : placeTpStep env st i = .ok st := by
      simp [placeTpStep, hb]
    unfold placeTpLoop
    rw [hstep]
    exact ih st hb

theorem placeTpStep_run (env : TradeEnv) (t : Trade) (acts : List BrokerAction)
    (i : Nat) (hp : i < t.profit_level.length) :
    ∃ acts1, placeTpStep env (t, acts, false) i =
      (if (env.tpPlace.getD i ⟨false, 0⟩).Success
       then .ok ({ t with tp_order_ids :=
                    t.tp_order_ids ++ [(env.tpPlace.getD i ⟨false, 0⟩).orderId] },
                 acts1, false)
       else .ok (t, acts1, true)) := by
  refine ⟨acts ++ [.limitSell (pyRound (t.quantity * SALES_RATIO.getD i 0) env.amount_precision)
    (pyRound (t.profit_level[i]) env.price_precision)], ?_⟩
  by_cases hsucc : (env.tpPlace[i]?.getD ⟨false, 0⟩).Success = true
  · simp [placeTpStep, pyGet, List.getElem?_eq_getElem hp, hsucc]
  · simp [placeTpStep, pyGet, List.getElem?_eq_getElem hp, hsucc]

theorem placeTpLoop_ids (env : TradeEnv) (l : List Nat) :
    ∀ (t : Trade) (acts : List BrokerAction),
    (∀ i ∈ l, i < t.profit_level.length) →
    ∃ acts2 b, placeTpLoop env l (t, acts, false) = .ok
      ({ t with tp_order_ids := t.tp_order_ids ++
          ((l.map (fun i => env.tpPlace.getD i ⟨false, 0⟩)).takeWhile
            (fun r => r.Success)).map (fun r => r.orderId) }, acts2, b) := by
  induction l with
  | nil =>
    intro t acts _
    exact ⟨acts, false, by simp [placeTpLoop]⟩
  | cons i rest ih =>
    intro t acts hb
    have hpl : i < t.profit_level.length := hb i (by simp)
    obtain ⟨acts1, hstep⟩ := placeTpStep_run env t acts i hpl
    by_cases hsucc : (env.tpPlace.getD i ⟨false, 0⟩).Success = true
    · have hsucc2 : (env.tpPlace[i]?.getD ⟨false, 0⟩).Success = true := by
        simpa using hsucc
      rw [if_pos hsucc] at hstep
      obtain ⟨acts2, b, hloop⟩ := ih
        { t with tp_order_ids := t.tp_order_ids ++ [(env.tpPlace.getD i ⟨false, 0⟩).orderId] }
        acts1 (fun j hj => hb j (List.mem_cons_of_mem _ hj))
      refine ⟨acts2, b, ?_⟩
      have hred : placeTpLoop env (i :: rest) (t, acts, false) =
          placeTpLoop env rest
            ({ t with tp_order_ids :=
                t.tp_order_ids ++ [(env.tpPlace.getD i ⟨false, 0⟩).orderId] },
              acts1, false) := by
        simp only [placeTpLoop, hstep]
      rw [hred, hloop]
      simp [hsucc2, List.takeWhile_cons, List.append_assoc]
    · have hsucc2 : ¬(env.tpPlace[i]?.getD ⟨false, 0⟩).Success = true := by
        simpa using hsucc
      rw [if_neg hsucc] at hstep
      refine ⟨acts1, true, ?_⟩
      have hred : placeTpLoop env (i :: rest) (t, acts, false) =
          placeTpLoop env rest (t, acts1, true) := by
        simp only [placeTpLoop, hstep]
      rw [hred, placeTpLoop_broke env rest (t, acts1, true) rfl]
      simp [hsucc2, List.takeWhile_cons]

/-! ## Claim C1 -/

/-- Claim C1 counterexample: an opportunity with `maximum = 5 ≤ minimum = 10`
at sizing time is not skipped by can_trade: the balance is queried, a LIMIT
buy is placed at price `10 + 0.618 * (5 - 10) = 6.91`, and on placement
success a Trade is created from the invalid range, contradicting the claim
that no order is placed and no Trade is ever created from such an
opportunity.  (The single pivot predates `opportunity.start`, so the bullish
scan leaves the range untouched.) -/
theorem can_trade_creates_trade_from_inverted_range :
    (5 : Rat) ≤ 10 ∧
    can_trade "X" [⟨50, 1, 0, "low", false⟩]
        [⟨10, 10, 5, 0, "N/A", 100, 200, 0⟩] [] "bullish" 2 2
        ⟨[⟨true, 691⟩], [⟨true, 7⟩]⟩ =
      .ok ([⟨10, 10, 5, 0, "BUY", 100, 200, 0⟩],
           [⟨"X", 7, 1, [10, 691/100, -5], [-5, -809/100, -1309/100], [], 0⟩]) := by
  constructor
  · norm_num
  · norm_num [can_trade, canTradeLoop, canTradeStep, scanOpportunity, scanStep, findPrevHigh,
      sizeOpportunity, takeBalance, takePlace, entryPrice, pyRound, SET_TRADE_QUANTITY,
      MINIMUM_BREAKTHROUGH_PERCENTAGE, Int.fract, List.range_succ]

/-- Claim C1 (amended): can_trade performs no `maximum ≤ minimum` validity
check at sizing time.  Once the balance query succeeds, sizing proceeds
unconditionally: if the computed entry price is zero (as for a fresh
opportunity with `minimum = maximum = 0`) the quantity division raises an
uncaught ZeroDivisionError instead of a local skip, and if the entry price is
nonzero and placement succeeds a Trade is created even from an invalid
range. -/
theorem sizeOpportunity_no_range_guard (coin : String) (ap pp : Nat)
    (opp : Opportunity) (trades : List Trade) (env : VenueEnv)
    (bal : BalanceResp) (bs : List BalanceResp)
    (hb : env.balances = bal :: bs) (hs : bal.Success = true) :
    (entryPrice opp = 0 →
      sizeOpportunity coin ap pp opp trades env = .error .zeroDivisionError) ∧
    (∀ pl pls, entryPrice opp ≠ 0 → env.places = pl :: pls → pl.Success = true →
      ∃ t : Trade, sizeOpportunity coin ap pp opp trades env =
        .ok ({ opp with action := "BUY" }, trades ++ [t], ⟨bs, pls⟩)) := by
  constructor
  · intro h0
    simp [sizeOpportunity, takeBalance, hb, hs, h0]
  · intro pl pls hne hp hps
    refine ⟨{ coin := coin
              order_id := pl.orderId
              quantity := pyRound ((bal.usdFree * SET_TRADE_QUANTITY) / entryPrice opp) ap
              stop_loss := [(opp.minimum + opp.support_line) / 2,
                            opp.minimum + (opp.maximum - opp.minimum) * (618/1000),
                            (opp.maximum - opp.minimum) * 1]
              profit_level := [(opp.maximum - opp.minimum) * 1,
                               (opp.maximum - opp.minimum) * (1618/1000),
                               (opp.maximum - opp.minimum) * (2618/1000)]
              tp_order_ids := []
              entry := 0 }, ?_⟩
    simp [sizeOpportunity, takeBalance, takePlace, hb, hp, hs, hps, hne]

/-- Witness for the amended C1 theorem: a fresh opportunity with
`minimum = maximum = 0` reaches sizing and raises ZeroDivisionError. -/
theorem sizeOpportunity_no_range_guard_witness :
    sizeOpportunity "X" 2 2 ⟨100, 0, 0, 0, "N/A", 0, 0, 0⟩ []
        ⟨[⟨true, 100⟩], [⟨true, 1⟩]⟩ = .error .zeroDivisionError :=
  (sizeOpportunity_no_range_guard "X" 2 2 ⟨100, 0, 0, 0, "N/A", 0, 0, 0⟩ []
      ⟨[⟨true, 100⟩], [⟨true, 1⟩]⟩ ⟨true, 100⟩ [] rfl rfl).1 (by norm_num [entryPrice])

/-! ## Claim C2 -/

/-- Claim C2 (the failing input evaluated): an ACTIVE Trade with three live
rungs, no TP fill, and the latest bar low `100` strictly above every stop
(the active stop is `stop_loss[0] = 95`).  The claim says no remainder market
sell is issued; the code issues a market sell for `1.00 * quantity` anyway,
because the `remain_qty > 0` block sits outside the stop-hit branch, and no
rung is ever zeroed by the stop path. -/
theorem handleTrade_market_sell_without_stop_hit :
    (95 : Rat) < 100 ∧
    handleTrade ⟨"BTC", 1, 1, [95, 10236/100, 20], [20, 3236/100, 5236/100], [11, 12, 13], 1⟩
        ⟨true, [], [], some ⟨999, 200, 100⟩, 2, 2⟩ =
      .ok (⟨"BTC", 1, 1, [95, 10236/100, 20], [20, 3236/100, 5236/100], [11, 12, 13], 1⟩,
           [.marketSell 1]) := by
  constructor
  · norm_num
  · norm_num [handleTrade, applyTpFills, tpFillLoop, tpFillStep, pyGetI, pySet, pyRound,
      truthyCount, remainFrac, Int.fract, List.range_succ]

/-! ## Claim C3 -/

/-- Claim C3 counterexample: with the second TP placement failing, the
placement loop `break`s: the third leg is never attempted (only two LIMIT
sell instructions are issued), no null entry is recorded, and
`tp_order_ids` ends as `[101]` — one entry, not one per attempted leg.
`entry` is still set to 1. -/
theorem placeTp_break_on_failure :
    handleTrade ⟨"BTC", 1, 1, [95, 102, 20], [20, 32, 52], [], 0⟩
        ⟨true, [⟨true, 101⟩, ⟨false, 0⟩, ⟨true, 103⟩], [], none, 2, 2⟩ =
      .ok (⟨"BTC", 1, 1, [95, 102, 20], [20, 32, 52], [101], 1⟩,
           [.limitSell (1/2) 20, .limitSell (1/4) 32]) := by
  norm_num [handleTrade, placeTpOrders, placeTpLoop, placeTpStep, pyGet, pyRound, truthyCount,
    SALES_RATIO, Int.fract, List.range_succ]

/-- Claim C3 (amended): for a Trade with `entry = 0` whose entry order has
filled, the Position Manager attempts the LIMIT sell placements at
`profit_level[0..2]` in order but aborts at the first failed placement (no
null entry is recorded for it and later legs are not attempted);
`tp_order_ids` gains exactly the order ids of the longest successful prefix
of placements, and `entry` is set to 1 after the loop even when it aborted
early. -/
theorem handleTrade_tp_success_prefix (t : Trade) (env : TradeEnv)
    (h0 : t.entry = 0) (hf : env.entryFilled = true) (hbar : env.bar = none)
    (hl : t.profit_level.length = 3) :
    Except.map (fun r => (r.1.tp_order_ids, r.1.entry)) (handleTrade t env) =
      .ok (t.tp_order_ids ++
        ((tpRespSeq env.tpPlace).takeWhile (fun r => r.Success)).map
          (fun r => r.orderId), 1) := by
  have hsr : SALES_RATIO.length = 3 := rfl
  obtain ⟨acts2, b, hloop⟩ := placeTpLoop_ids env (List.range SALES_RATIO.length) t []
    (fun i hi => by
      rw [hl]
      have h2 := List.mem_range.mp hi
      rw [hsr] at h2
      exact h2)
  have hplace : placeTpOrders t env = .ok
      ({ t with tp_order_ids := (t.tp_order_ids ++
          ((tpRespSeq env.tpPlace).takeWhile (fun r => r.Success)).map (fun r => r.orderId)) },
        acts2) := by
    unfold placeTpOrders
    rw [hloop]
    rfl
  simp [handleTrade, h0, hf, hbar, hplace, Except.map]

/-- Witness for the amended C3 theorem at a concrete input: responses
succeed, fail, succeed, so `tp_order_ids` gains only `[201]` and `entry`
ends at 1. -/
theorem handleTrade_tp_success_prefix_witness :
    Except.map (fun r => (r.1.tp_order_ids, r.1.entry))
      (handleTrade ⟨"BTC", 2, 1, [95, 102, 20], [20, 32, 52], [], 0⟩
        ⟨true, [⟨true, 201⟩, ⟨false, 0⟩, ⟨true, 203⟩], [], none, 2, 2⟩) =
      .ok ([201], 1) := by
  have h := handleTrade_tp_success_prefix ⟨"BTC", 2, 1, [95, 102, 20], [20, 32, 52], [], 0⟩
    ⟨true, [⟨true, 201⟩, ⟨false, 0⟩, ⟨true, 203⟩], [], none, 2, 2⟩ rfl rfl rfl rfl
  rw [h]
  decide

/-! ## Claim C4 -/

/-- Claim C4: for a matured opportunity (`maximum > minimum > 0`) the sizer
computes entry price `minimum + 0.618 * (maximum - minimum)`, and on a
successful placement the created Trade carries
`profit_level = [range, range*1.618, range*2.618]` and
`stop_loss = [(minimum + support_line)/2, minimum + range*0.618, range]`
with `range = maximum - minimum`, all before precision rounding. -/
theorem sizeOpportunity_ladder (coin : String) (ap pp : Nat) (opp : Opportunity)
    (trades : List Trade) (bal : BalanceResp) (bs : List BalanceResp)
    (pl : PlaceResp) (pls : List PlaceResp)
    (hmin : 0 < opp.minimum) (hrange : opp.minimum < opp.maximum)
    (hs : bal.Success = true) (hps : pl.Success = true) :
    entryPrice opp = opp.minimum + (618/1000) * (opp.maximum - opp.minimum) ∧
    sizeOpportunity coin ap pp opp trades ⟨bal :: bs, pl :: pls⟩ =
      .ok ({ opp with action := "BUY" },
           trades ++ [{ coin := coin
                        order_id := pl.orderId
                        quantity := pyRound ((bal.usdFree * SET_TRADE_QUANTITY) / entryPrice opp) ap
                        stop_loss := [(opp.minimum + opp.support_line) / 2,
                                      opp.minimum + (opp.maximum - opp.minimum) * (618/1000),
                                      (opp.maximum - opp.minimum) * 1]
                        profit_level := [(opp.maximum - opp.minimum) * 1,
                                         (opp.maximum - opp.minimum) * (1618/1000),
                                         (opp.maximum - opp.minimum) * (2618/1000)]
                        tp_order_ids := []
                        entry := 0 }],
           ⟨bs, pls⟩) := by
  have hpos : (0 : Rat) < entryPrice opp := by
    have h1 : (0 : Rat) < (618/1000 : Rat) := by norm_num
    have h2 : (0 : Rat) < opp.maximum - opp.minimum := by linarith
    have := mul_pos h1 h2
    unfold entryPrice
    linarith
  have hne2 : opp.minimum + 618/1000 * (opp.maximum - opp.minimum) ≠ 0 := by
    have h := hpos.ne'
    unfold entryPrice at h
    exact h
  refine ⟨rfl, ?_⟩
  simp [sizeOpportunity, takeBalance, takePlace, hs, hps, hne2, entryPrice]

/-- Witness for C4, Scenario D: `minimum = 90`, `maximum = 110`,
`support_line = 100` gives entry price `102.36`, profit ladder
`[20, 32.36, 52.36]`, stop ladder `[95, 102.36, 20]`. -/
theorem sizeOpportunity_ladder_witness :
    entryPrice ⟨100, 90, 110, 0, "N/A", 0, 0, 0⟩ = 10236/100 ∧
    sizeOpportunity "X" 2 2 ⟨100, 90, 110, 0, "N/A", 0, 0, 0⟩ []
        ⟨[⟨true, 10000⟩], [⟨true, 9⟩]⟩ =
      .ok (⟨100, 90, 110, 0, "BUY", 0, 0, 0⟩,
           [⟨"X", 9, 49/50, [95, 10236/100, 20], [20, 3236/100, 5236/100], [], 0⟩],
           ⟨[], []⟩) := by
  have h := sizeOpportunity_ladder "X" 2 2 ⟨100, 90, 110, 0, "N/A", 0, 0, 0⟩ []
    ⟨true, 10000⟩ [] ⟨true, 9⟩ [] (by norm_num) (by norm_num) rfl rfl
  refine ⟨by norm_num [entryPrice], ?_⟩
  rw [h.2]
  norm_num [entryPrice, pyRound, SET_TRADE_QUANTITY]

/-! ## Claim C8 -/

/-- Claim C8: ladder-length invariant.  Every Trade the sizer creates carries
`len(stop_loss) = len(profit_level) = 3`, and a Position-Manager cycle that
completes on a Trade with 3-rung ladders leaves both lengths at 3: consumed
rungs are zeroed in place (`List.set`), never removed. -/
theorem trade_ladder_length_invariant :
    (∀ (coin : String) (ap pp : Nat) (opp : Opportunity) (trades : List Trade)
       (env : VenueEnv) (r : Opportunity × List Trade × VenueEnv),
       sizeOpportunity coin ap pp opp trades env = .ok r →
       ∀ t ∈ r.2.1, t ∈ trades ∨
         (t.stop_loss.length = 3 ∧ t.profit_level.length = 3)) ∧
    (∀ (t : Trade) (env : TradeEnv) (r : Trade × List BrokerAction),
       handleTrade t env = .ok r →
       t.stop_loss.length = 3 → t.profit_level.length = 3 →
       r.1.stop_loss.length = 3 ∧ r.1.profit_level.length = 3) := by
  constructor
  · intro coin ap pp opp trades env r h t ht
    simp only [sizeOpportunity] at h
    split at h
    · injection h with h1
      subst h1
      exact Or.inl ht
    · split at h
      · exact absurd h (by simp)
      · split at h
        · injection h with h1
          subst h1
          rcases List.mem_append.mp ht with h2 | h2
          · exact Or.inl h2
          · simp only [List.mem_singleton] at h2
            subst h2
            exact Or.inr ⟨rfl, rfl⟩
        · injection h with h1
          subst h1
          exact Or.inl ht
  · intro t env r h hs3 hp3
    simp only [handleTrade] at h
    split at h
    · injection h with h1
      subst h1
      exact ⟨hs3, hp3⟩
    · split at h
      · injection h with h1
        subst h1
        exact ⟨hs3, hp3⟩
      · split at h
        · exact absurd h (by simp)
        next r1 heq =>
          have hr1 : r1.1.stop_loss.length = 3 ∧ r1.1.profit_level.length = 3 := by
            by_cases he : t.entry = 0
            · rw [if_pos he] at heq
              unfold placeTpOrders at heq
              cases hloop : placeTpLoop env (List.range SALES_RATIO.length) (t, [], false) with
              | error e => rw [hloop] at heq; exact absurd heq (by simp)
              | ok st1 =>
                rw [hloop] at heq
                injection heq with h2
                obtain ⟨hp, hsl, _, _⟩ := placeTpLoop_pres env
                  (List.range SALES_RATIO.length) (t, [], false) st1 hloop
                subst h2
                exact ⟨by rw [hsl]; exact hs3, by rw [hp]; exact hp3⟩
            · rw [if_neg he] at heq
              injection heq with h2
              subst h2
              exact ⟨hs3, hp3⟩
          split at h
          · injection h with h1
            subst h1
            exact ⟨hr1.1, hr1.2⟩
          · split at h
            · exact absurd h (by simp)
            next t3 heq2 =>
              unfold applyTpFills at heq2
              obtain ⟨hq1, hq2, _, _, _⟩ := tpFillLoop_pres env _ _ t3 heq2
              split at h
              · exact absurd h (by simp)
              · injection h with h1
                subst h1
                refine ⟨?_, ?_⟩
                · rw [hq2]
                  exact hr1.1
                · rw [hq1]
                  exact hr1.2

/-- Witness for the C8 theorem: a concrete ACTIVE trade keeps both ladder
lengths at 3 through a completed cycle. -/
theorem trade_ladder_length_invariant_witness :
    ((⟨"ETH", 5, 2, [50, 60, 70], [80, 90, 99], [], 1⟩ : Trade), [BrokerAction.marketSell 2]).1.stop_loss.length = 3 ∧
    ((⟨"ETH", 5, 2, [50, 60, 70], [80, 90, 99], [], 1⟩ : Trade), [BrokerAction.marketSell 2]).1.profit_level.length = 3 :=
  trade_ladder_length_invariant.2
    ⟨"ETH", 5, 2, [50, 60, 70], [80, 90, 99], [], 1⟩
    ⟨true, [], [], some ⟨7, 100, 55⟩, 2, 2⟩
    (⟨"ETH", 5, 2, [50, 60, 70], [80, 90, 99], [], 1⟩, [BrokerAction.marketSell 2])
    (by norm_num [handleTrade, applyTpFills, tpFillLoop, tpFillStep, pySet, pyGetI, pyRound,
      truthyCount, remainFrac, Int.fract, List.range_succ])
    rfl rfl

/-! ## Claim C10 -/

/-- Claim C10: when the TP-fill scan consumes the last nonzero rung
(`remaining = 0` afterwards), the stop check indexes
`stop_loss[len(stop_loss) - 0] = stop_loss[3]`, out of bounds on the
3-element ladder, so the cycle raises an uncaught IndexError — propagated by
coins_handler — instead of closing the Trade. -/
theorem stop_check_index_error (t : Trade) (env : TradeEnv) (rest : List Trade)
    (envs : List TradeEnv) (b : Bar)
    (h1 : t.entry = 1) (hpl : t.profit_level.length = 3)
    (hsl : t.stop_loss.length = 3)
    (hnz : truthyCount t.profit_level ≠ 0) (hbar : env.bar = some b)
    (hscan : Except.map (fun t1 => truthyCount t1.profit_level)
      (applyTpFills t env) = .ok 0) :
    handleTrade t env = .error .indexError ∧
    coins_handler (t :: rest) (env :: envs) = .error .indexError := by
  cases hf : applyTpFills t env with
  | error e =>
    rw [hf] at hscan
    exact absurd hscan (by simp [Except.map])
  | ok t3 =>
    rw [hf] at hscan
    have h0 : truthyCount t3.profit_level = 0 := by
      simpa [Except.map] using hscan
    have hfills := hf
    unfold applyTpFills at hfills
    obtain ⟨hq1, hq2, _, _, _⟩ := tpFillLoop_pres env _ _ t3 hfills
    have ht2 : ({ t with entry := 1 } : Trade) = t := by
      cases t
      simp only at h1
      simp [h1]
    have hht : handleTrade t env = .error .indexError := by
      norm_num [handleTrade, h1, hnz, hbar, ht2, hf, h0, pyGetI, hq2, hsl]
    refine ⟨hht, ?_⟩
    unfold coins_handler
    simp [hht]

/-- Witness for the C10 theorem: a trade with one live rung whose TP order
fills this cycle hits the out-of-bounds stop index. -/
theorem stop_check_index_error_witness :
    handleTrade ⟨"BTC", 1, 1, [95, 0, 0], [20, 0, 0], [11], 1⟩
        ⟨true, [], [11], some ⟨999, 200, 100⟩, 2, 2⟩ = .error .indexError ∧
    coins_handler [⟨"BTC", 1, 1, [95, 0, 0], [20, 0, 0], [11], 1⟩]
        [⟨true, [], [11], some ⟨999, 200, 100⟩, 2, 2⟩] = .error .indexError :=
  stop_check_index_error ⟨"BTC", 1, 1, [95, 0, 0], [20, 0, 0], [11], 1⟩
    ⟨true, [], [11], some ⟨999, 200, 100⟩, 2, 2⟩ [] [] ⟨999, 200, 100⟩
    rfl rfl rfl (by norm_num [truthyCount]) rfl
    (by norm_num [applyTpFills, tpFillLoop, tpFillStep, pySet, truthyCount,
      Except.map, List.range_succ])

/-! ## Claim C5 -/

/-- Claim C5: every candidate index `c` that update_pivots evaluates lies in
`[W, n - W - 1]` (edge bars are never evaluated), and the evaluated
classification is exact: `c` is classified a pivot low iff its low is ≤ every
low in the window `[c - W, c + W]`, and a pivot high iff its high is ≥ every
high there (a bar may be both). -/
theorem update_pivots_pivot_classification (rows : List Bar)
    (pivots : List PivotPoint) (c : Nat) (hc : c ∈ evalCandidates rows pivots) :
    (pivotWindow ≤ c ∧ c + pivotWindow + 1 ≤ rows.length) ∧
    (isPivotLowAt rows c = true ↔
      ∀ k, c - pivotWindow ≤ k → k ≤ c + pivotWindow →
        (rows.getD c default).low ≤ (rows.getD k default).low) ∧
    (isPivotHighAt rows c = true ↔
      ∀ k, c - pivotWindow ≤ k → k ≤ c + pivotWindow →
        (rows.getD k default).high ≤ (rows.getD c default).high) := by
  have hrange : pivotWindow ≤ c ∧ c + pivotWindow + 1 ≤ rows.length := by
    simp only [evalCandidates] at hc
    split at hc
    · exact absurd hc (by simp)
    next f0 rest heq =>
      split at hc
      · exact absurd hc (by simp)
      next hse =>
        rw [List.mem_range'_1] at hc
        have h1 : max f0 pivotWindow ≤ c := hc.1
        have h2 := hc.2
        have h3 : pivotWindow ≤ max f0 pivotWindow := le_max_right _ _
        have hw : pivotWindow = 2 := rfl
        rw [hw] at h3 hse ⊢
        rw [hw] at h2
        omega
  refine ⟨hrange, ?_, ?_⟩
  · unfold isPivotLowAt
    rw [List.all_eq_true]
    constructor
    · intro h k hk1 hk2
      have hm : k ∈ List.range' (c - pivotWindow) (2 * pivotWindow + 1) := by
        rw [List.mem_range'_1]
        omega
      simpa using h k hm
    · intro h k hk
      rw [List.mem_range'_1] at hk
      simp only [decide_eq_true_eq]
      exact h k (by omega) (by omega)
  · unfold isPivotHighAt
    rw [List.all_eq_true]
    constructor
    · intro h k hk1 hk2
      have hm : k ∈ List.range' (c - pivotWindow) (2 * pivotWindow + 1) := by
        rw [List.mem_range'_1]
        omega
      simpa using h k hm
    · intro h k hk
      rw [List.mem_range'_1] at hk
      simp only [decide_eq_true_eq, ge_iff_le]
      exact h k (by omega) (by omega)

/-- Witness for the C5 theorem at Scenario A: index 5 of the V-shaped window
is an evaluated candidate inside `[W, n - W - 1]`. -/
theorem update_pivots_pivot_classification_witness :
    pivotWindow ≤ 5 ∧ 5 + pivotWindow + 1 ≤ c5Bars.length :=
  (update_pivots_pivot_classification c5Bars [] 5 (by decide)).1

/-! ## Claim C9 -/

/-- Claim C9 counterexample: a call that appends a low pivot returns the
Python value None (no `"none" | "high" | "low" | "both"` classification —
the scan path of update_pivots has no return statement), and a window whose
`low` column is missing returns the string `"none"` instead of failing with
a data-shape error. -/
theorem update_pivots_no_classification :
    update_pivots (some ⟨c9Bars, true, true⟩) [] =
      (Option.none, [⟨3, 1, 2, "low", false⟩]) ∧
    update_pivots (some ⟨c9Bars, true, false⟩) [] = (some "none", []) := by
  constructor
  · norm_num [update_pivots, pivotWindow, PIVOT_POINT_COMPARE, c9Bars, sortBars, insertBar,
      evalCandidates, latestThreshold, appendCandidate, isPivotLowAt, isPivotHighAt,
      (by decide : List.range 5 = [0, 1, 2, 3, 4]),
      (by decide : List.range' 2 1 = [2]),
      (by decide : List.range' 0 5 = [0, 1, 2, 3, 4])]
  · norm_num [update_pivots, pivotWindow, PIVOT_POINT_COMPARE, c9Bars]

/-- Claim C9 (amended): update_pivots returns the string `"none"` on every
early exit — a None frame, an empty or undersized window, and a window
missing the high/low columns (reported as `"none"`, not raised as an error)
— leaving the pivot list unchanged; once the scan runs it falls off the end
of the function and returns Python None, whatever was appended. -/
theorem update_pivots_return_contract (data : Option PyDataFrame)
    (pivots : List PivotPoint) :
    (∀ df : PyDataFrame, data = some df →
       (df.rows.length = 0 ∨ df.rows.length < pivotWindow * 2 + 1 ∨
        df.hasHigh = false ∨ df.hasLow = false) →
       update_pivots data pivots = (some "none", pivots)) ∧
    (((update_pivots data pivots).1 = some "none" ∧
       (update_pivots data pivots).2 = pivots) ∨
      (update_pivots data pivots).1 = Option.none) := by
  constructor
  · rintro df rfl hcase
    simp only [update_pivots]
    rcases hcase with h | h | h | h <;>
      split_ifs <;> first | rfl | simp_all
  · cases data with
    | none => exact Or.inl ⟨rfl, rfl⟩
    | some df =>
      simp only [update_pivots]
      split_ifs <;> first | exact Or.inl ⟨rfl, rfl⟩ | exact Or.inr rfl

/-- Witness for the amended C9 theorem: the malformed window (no low column)
reports `"none"` with the pivot list unchanged. -/
theorem update_pivots_return_contract_witness :
    update_pivots (some ⟨c9Bars, true, false⟩) [] = (some "none", []) :=
  (update_pivots_return_contract (some ⟨c9Bars, true, false⟩) []).1
    ⟨c9Bars, true, false⟩ rfl (Or.inr (Or.inr (Or.inr rfl)))

/-! ## Claim C6 -/

/-- Claim C6 counterexample: two unsupported low pivots 0.2% apart in price
and well inside the timeframe, with a *supported* low pivot between them.
Per the claim the pair is eligible (a supported in-between pivot does not
block it) and one Opportunity should be emitted; the Matcher's in-between
check ignores `is_supported`, so no Opportunity is emitted and the pivots
stay unsupported. -/
theorem matcher_blocked_by_supported_pivot :
    ((⟨2000, 500, 1, "low", true⟩ : PivotPoint).is_supported = true ∧
     |(3000 : Int) - 1000| ≤ SUPPORT_LINE_TIMEFRAME ∧
     |(501/5 : Rat) - 100| / 100 ≤ MAXIMUM_PERCENTAGE_DIFFERENCE) ∧
    update_support_resistance
        [⟨1000, 100, 0, "low", false⟩, ⟨2000, 500, 1, "low", true⟩,
         ⟨3000, 501/5, 2, "low", false⟩] [] =
      ([⟨1000, 100, 0, "low", false⟩, ⟨2000, 500, 1, "low", true⟩,
        ⟨3000, 501/5, 2, "low", false⟩], []) := by
  refine ⟨⟨rfl, by norm_num [SUPPORT_LINE_TIMEFRAME, TRADING_FREQUENCY_MS], ?_⟩, ?_⟩
  · rw [show ((501/5 : Rat) - 100) = 1/5 by norm_num,
      abs_of_nonneg (by norm_num : (0 : Rat) ≤ 1/5)]
    norm_num [MAXIMUM_PERCENTAGE_DIFFERENCE]
  · norm_num [update_support_resistance, srOuterStep, srInner, markSupported,
      SUPPORT_LINE_TIMEFRAME, TRADING_FREQUENCY_MS, MAXIMUM_PERCENTAGE_DIFFERENCE,
      abs_of_nonneg,
      (by decide : ¬("low" : String) = "high"),
      (by decide : List.range 2 = [0, 1]),
      (by decide : List.range' 1 2 = [1, 2]),
      (by decide : List.range' 2 1 = [2]),
      (by decide : List.range' 1 0 = ([] : List Nat)),
      (by decide : List.range' 1 1 = [1]),
      (by decide : List.range' 2 0 = ([] : List Nat))]

/-- Claim C6 (amended): the pair decision of the Matcher, for a pair of
unsupported pivots of the scanned type at positions `i < j`.  The pair is
rejected — nothing marked, nothing emitted — exactly when any pivot of the
same type lies strictly between them (supported or not), or the time gap
exceeds the timeframe, or the relative price difference exceeds the
tolerance; on an eligible pair both pivots are marked supported and one
Opportunity is emitted with `support_line = (price_i + price_j)/2`,
`start = timestamp_j`, `end = timestamp_j + timeframe`,
`minimum = maximum = relative_pivot = 0` and `action = "N/A"`. -/
theorem srInner_pair_decision (ps : List PivotPoint) (opps : List Opportunity)
    (t : String) (i j : Nat) (p1 p2 : PivotPoint)
    (hij : i < j) (hj : j < ps.length)
    (hpi : ps[i]? = some p1) (hpj : ps[j]? = some p2)
    (_hti : p1.type = t) (htj : p2.type = t)
    (_hui : p1.is_supported = false) (huj : p2.is_supported = false)
    (hz : p1.price ≠ 0) :
    ((¬ ∃ k, i < k ∧ k < j ∧ (ps.getD k default).type = t) →
     |p2.timestamp - p1.timestamp| ≤ SUPPORT_LINE_TIMEFRAME →
     |p2.price - p1.price| / p1.price ≤ MAXIMUM_PERCENTAGE_DIFFERENCE →
     srInner t i (ps, opps, false) j =
       (markSupported (markSupported ps i) j,
        opps ++ [⟨(p1.price + p2.price) / 2, 0, 0, 0, "N/A", p2.timestamp,
                  p2.timestamp + SUPPORT_LINE_TIMEFRAME, 0⟩],
        false)) ∧
    (((∃ k, i < k ∧ k < j ∧ (ps.getD k default).type = t) ∨
      SUPPORT_LINE_TIMEFRAME < |p2.timestamp - p1.timestamp| ∨
      MAXIMUM_PERCENTAGE_DIFFERENCE < |p2.price - p1.price| / p1.price) →
     (srInner t i (ps, opps, false) j).1 = ps ∧
     (srInner t i (ps, opps, false) j).2.1 = opps) ∧
    (((markSupported (markSupported ps i) j).getD i default).is_supported = true ∧
     ((markSupported (markSupported ps i) j).getD j default).is_supported = true) := by
  have hgi : ps.getD i default = p1 := by
    simp [List.getD, hpi]
  have hgj : ps.getD j default = p2 := by
    simp [List.getD, hpj]
  have hiff : ((List.range' (i + 1) (j - (i + 1))).any
      (fun k => decide ((ps.getD k default).type = t))) = true ↔
      (∃ k, i < k ∧ k < j ∧ (ps.getD k default).type = t) := by
    rw [List.any_eq_true]
    constructor
    · rintro ⟨k, hk, hty⟩
      rw [List.mem_range'_1] at hk
      rw [decide_eq_true_eq] at hty
      exact ⟨k, by omega, by omega, hty⟩
    · rintro ⟨k, h1, h2, hty⟩
      refine ⟨k, ?_, by rw [decide_eq_true_eq]; exact hty⟩
      rw [List.mem_range'_1]
      omega
  refine ⟨?_, ?_, ?_⟩
  · intro hnb hgap htol
    have hany : ((List.range' (i + 1) (j - (i + 1))).any
        (fun k => decide ((ps.getD k default).type = t))) = false := by
      rw [← Bool.not_eq_true, hiff]
      exact hnb
    simp only [srInner, hgj, hgi, htj, huj, hany]
    simp [hz, not_lt.mpr hgap, not_lt.mpr htol]
  · intro hrej
    by_cases h1 : ((List.range' (i + 1) (j - (i + 1))).any
        (fun k => decide ((ps.getD k default).type = t))) = true
    · simp only [srInner, hgj, htj, huj, h1]
      simp
    · by_cases h2 : SUPPORT_LINE_TIMEFRAME < |p2.timestamp - p1.timestamp|
      · simp only [srInner, hgj, hgi, htj, huj, h1]
        simp [h2]
      · by_cases h3 : MAXIMUM_PERCENTAGE_DIFFERENCE < |p2.price - p1.price| / p1.price
        · simp only [srInner, hgj, hgi, htj, huj, h1]
          simp [hz, not_lt.mpr (le_of_not_lt h2), h3]
        · exfalso
          rcases hrej with h | h | h
          · exact h1 (hiff.mpr h)
          · exact h2 h
          · exact h3 h
  · have hil : i < ps.length := lt_trans hij hj
    have hne : i ≠ j := Nat.ne_of_lt hij
    constructor
    · simp [markSupported, List.getD, hpi, hpj, List.getElem?_set_ne hne,
        List.getElem?_set_ne hne.symm, hil, hj]
    · simp [markSupported, List.getD, hpi, hpj, List.getElem?_set_ne hne, hil, hj]

/-- Witness for the amended C6 theorem at Scenario B: two unsupported low
pivots at prices 100 and 100.3, ten minutes apart, pair up; the emitted
Opportunity has `support_line = 100.15`. -/
theorem srInner_pair_decision_witness :
    srInner "low" 0
      ([⟨0, 100, 0, "low", false⟩, ⟨600000, 1003/10, 1, "low", false⟩], [], false) 1 =
      (markSupported (markSupported
          [⟨0, 100, 0, "low", false⟩, ⟨600000, 1003/10, 1, "low", false⟩] 0) 1,
       [⟨(100 + 1003/10) / 2, 0, 0, 0, "N/A", 600000,
         600000 + SUPPORT_LINE_TIMEFRAME, 0⟩],
       false) := by
  have h := (srInner_pair_decision
    [⟨0, 100, 0, "low", false⟩, ⟨600000, 1003/10, 1, "low", false⟩] []
    "low" 0 1 ⟨0, 100, 0, "low", false⟩ ⟨600000, 1003/10, 1, "low", false⟩
    (by norm_num) (by norm_num) rfl rfl rfl rfl rfl rfl (by norm_num)).1
    (by rintro ⟨k, hk1, hk2, _⟩; omega)
    (by norm_num [SUPPORT_LINE_TIMEFRAME, TRADING_FREQUENCY_MS])
    (by
      rw [show ((1003/10 : Rat) - 100) = 3/10 by norm_num,
        abs_of_nonneg (by norm_num : (0 : Rat) ≤ 3/10)]
      norm_num [MAXIMUM_PERCENTAGE_DIFFERENCE])
  simpa using h

/-! ## Claim C7 -/

/-- Claim C7 counterexample: an opportunity whose scan sees a high pivot at
price 50 and then a low pivot at 99.9 — above the breakthrough threshold
`100 * (1 - 0.002) = 99.8`, so NO candidate minimum is ever recorded — still
ends with `relative_pivot = 50`: the backward scan runs for every scanned
pivot, not only for candidate minima as the claim states. -/
theorem scan_relative_pivot_from_non_candidate :
    ((999/10 : Rat) ≥ 100 * (1 - MINIMUM_BREAKTHROUGH_PERCENTAGE)) ∧
    scanOpportunity [⟨10, 50, 0, "high", false⟩, ⟨20, 999/10, 1, "low", false⟩]
        ⟨100, 0, 0, 0, "N/A", 0, 1000, 0⟩ =
      ⟨100, 0, 0, 50, "N/A", 0, 1000, 0⟩ := by
  constructor
  · norm_num [MINIMUM_BREAKTHROUGH_PERCENTAGE]
  · norm_num [scanOpportunity, scanStep, findPrevHigh, MINIMUM_BREAKTHROUGH_PERCENTAGE,
      (by decide : ¬("high" : String) = "low"),
      (by decide : List.range 2 = [0, 1])]

/-- Claim C7 (amended): one step of the bullish scan of can_trade.  A pivot
is skipped iff its timestamp is below `max(start, extrema_timestamp)`.  On a
scanned pivot: `minimum`, `end` and `extrema_timestamp` are updated iff the
pivot is a low priced below `support_line * (1 - breakthrough_pct)`;
`relative_pivot` is then set from every scanned pivot — candidate or not —
to the nearest preceding high pivot's price when one exists; finally, if the
(possibly just-recorded) minimum is positive and the pivot's price exceeds
the (possibly just-updated) relative_pivot, that price becomes `maximum` and
the scan stops, possibly in the very iteration that recorded the minimum. -/
theorem scanStep_characterization (ps : List PivotPoint) (opp : Opportunity)
    (i : Nat) :
    ((ps.getD i default).timestamp < max opp.start opp.extrema_timestamp →
      scanStep ps (opp, false) i = (opp, false)) ∧
    (max opp.start opp.extrema_timestamp ≤ (ps.getD i default).timestamp →
      ((scanStep ps (opp, false) i).1.minimum =
        (if (ps.getD i default).type = "low" ∧
            (ps.getD i default).price <
              opp.support_line * (1 - MINIMUM_BREAKTHROUGH_PERCENTAGE)
         then (ps.getD i default).price else opp.minimum)) ∧
      ((scanStep ps (opp, false) i).1.end_time =
        (if (ps.getD i default).type = "low" ∧
            (ps.getD i default).price <
              opp.support_line * (1 - MINIMUM_BREAKTHROUGH_PERCENTAGE)
         then opp.end_time + TIME_EXTEND_MS else opp.end_time)) ∧
      ((scanStep ps (opp, false) i).1.extrema_timestamp =
        (if (ps.getD i default).type = "low" ∧
            (ps.getD i default).price <
              opp.support_line * (1 - MINIMUM_BREAKTHROUGH_PERCENTAGE)
         then (ps.getD i default).timestamp else opp.extrema_timestamp)) ∧
      ((scanStep ps (opp, false) i).1.relative_pivot =
        (findPrevHigh ps i).getD opp.relative_pivot) ∧
      ((scanStep ps (opp, false) i).1.maximum =
        (if 0 < (scanStep ps (opp, false) i).1.minimum ∧
            (scanStep ps (opp, false) i).1.relative_pivot < (ps.getD i default).price
         then (ps.getD i default).price else opp.maximum)) ∧
      ((scanStep ps (opp, false) i).2 = true ↔
        (0 < (scanStep ps (opp, false) i).1.minimum ∧
         (scanStep ps (opp, false) i).1.relative_pivot <
           (ps.getD i default).price))) ∧
    (findPrevHigh ps i =
      (((List.range i).reverse.find?
          (fun j => decide ((ps.getD j default).type = "high"))).map
        (fun j => (ps.getD j default).price))) := by
  refine ⟨?_, ?_, ?_⟩
  · intro h
    rcases lt_max_iff.mp h with h1 | h1
    · have h1b : (ps[i]?.getD default).timestamp < opp.start := by simpa using h1
      simp [scanStep, h1b]
    · have h1b : (ps[i]?.getD default).timestamp < opp.extrema_timestamp := by
        simpa using h1
      simp [scanStep, h1b]
  · intro h
    have h1 : ¬ (ps[i]?.getD default).timestamp < opp.start := by
      simpa using not_lt.mpr (le_trans (le_max_left _ _) h)
    have h2 : ¬ (ps[i]?.getD default).timestamp < opp.extrema_timestamp := by
      simpa using not_lt.mpr (le_trans (le_max_right _ _) h)
    by_cases hcand : ((ps[i]?.getD default).type = "low" ∧
        (ps[i]?.getD default).price <
          opp.support_line * (1 - MINIMUM_BREAKTHROUGH_PERCENTAGE)) <;>
      cases hfind : findPrevHigh ps i <;>
      refine ⟨?_, ?_, ?_, ?_, ?_, ?_⟩ <;>
      simp [scanStep, h1, h2, hcand, hfind] <;>
      split_ifs <;>
      simp_all
  · induction i with
    | zero => simp [findPrevHigh]
    | succ k ih =>
      by_cases hk : (ps[k]?.getD default).type = "high"
      · simp [findPrevHigh, List.range_succ, List.find?_cons, hk]
      · simp [findPrevHigh, List.range_succ, List.find?_cons, hk, ih]

/-- Witness for the amended C7 theorem: at the counterexample input, the
scanned non-candidate pivot at index 1 still updates relative_pivot to the
preceding high's price. -/
theorem scanStep_characterization_witness :
    (scanStep [⟨10, 50, 0, "high", false⟩, ⟨20, 999/10, 1, "low", false⟩]
        ((⟨100, 0, 0, 0, "N/A", 0, 1000, 0⟩ : Opportunity), false) 1).1.relative_pivot =
      (findPrevHigh [⟨10, 50, 0, "high", false⟩, ⟨20, 999/10, 1, "low", false⟩] 1).getD
        (⟨100, 0, 0, 0, "N/A", 0, 1000, 0⟩ : Opportunity).relative_pivot :=
  (((scanStep_characterization
      [⟨10, 50, 0, "high", false⟩, ⟨20, 999/10, 1, "low", false⟩]
      ⟨100, 0, 0, 0, "N/A", 0, 1000, 0⟩ 1).2.1
    (by norm_num)).2.2.2).1

end TradingBot
